import Mathlib

/-!
Verification of the yt-tx batch transcript pipeline.

This file gives a shallow embedding, in Lean 4, of the parts of the
repository that the specification talks about:

* `internal/transcript.go` — the pure VTT cleaning transform
  (`DedupeLines`, `IsNumber`, `IsTimestamp`, `StripHTMLTags`,
  `RemoveVTTArtifacts`, `CleanVTTFile`);
* `internal/youtube.go` — `FetchTitle`, `DownloadSubtitles`,
  `ExtractVideoID`;
* the files helpers — `SanitizeFilename`, `GetCleanedFilePathByTitle`,
  `GetLocalVTTPathByVideoID`, `EnsureDirectories`, `CleanDirectories`;
* the parallel executor — the body of `runWorker`, `WorkflowState.Init`
  and the `JobProcessingResult` branch of `WorkflowState.Update`;
* `cmd/yt-tx/main.go` — flag handling and run preparation.

Go strings are modelled as Lean `String`s and indexed through their
character list; all the string literals exercised here are ASCII, where
Go byte indexing and character indexing agree.  External effects
(running yt-dlp, `os.Stat`, file reads and writes) are modelled as
oracle functions collected in an `Env` record; the worker additionally
reports the list of external calls it made and the successive values of
its local job record, so that "no download happened" and "an error is
never cleared" are statable.
-/

deriving instance DecidableEq for Except

/-! ## internal/transcript.go -/

/-- `strings.TrimSpace`: drop whitespace from both ends of the line. -/
def trimSpace (s : String) : String :=
  String.mk (((s.data.dropWhile Char.isWhitespace).reverse.dropWhile Char.isWhitespace).reverse)

/-- `IsNumber` from transcript.go: every byte is a digit and the string is
non-empty. -/
def IsNumber (s : String) : Bool :=
  s.data.all (fun r => decide ('0' ≤ r) && decide (r ≤ '9')) && decide (0 < s.data.length)

/-- `strings.Contains`: `needle` occurs as a contiguous substring. -/
def containsSub (needle : List Char) : List Char → Bool
  | [] => needle.isEmpty
  | c :: rest => needle.isPrefixOf (c :: rest) || containsSub needle rest

/-- `IsTimestamp` from transcript.go: length at least 29, fixed separator
positions 2, 5 and 8, and the string contains the arrow token. -/
def IsTimestamp (s : String) : Bool :=
  decide (29 ≤ s.data.length) && (s.data.getD 2 ' ' == ':') && (s.data.getD 5 ' ' == ':')
    && (s.data.getD 8 ' ' == '.') && containsSub ("-->".data) s.data

/-- The single-pass tag-stripping loop of `StripHTMLTags`: a Bool flag
tracks whether we are inside a tag. -/
def stripTags : Bool → List Char → List Char
  | _, [] => []
  | _, '<' :: rest => stripTags true rest
  | _, '>' :: rest => stripTags false rest
  | true, _ :: rest => stripTags true rest
  | false, c :: rest => c :: stripTags false rest

/-- `StripHTMLTags` from transcript.go. -/
def StripHTMLTags (s : String) : String :=
  String.mk (stripTags false s.data)

/-- `RemoveVTTArtifacts` from transcript.go: trim each line, drop empty
lines, the WEBVTT header, pure-number lines and timestamp lines, strip
tags, and drop lines that became empty. -/
def RemoveVTTArtifacts : List String → List String
  | [] => []
  | l :: rest =>
    let line := trimSpace l
    if line == "" || line == "WEBVTT" then RemoveVTTArtifacts rest
    else if IsNumber line then RemoveVTTArtifacts rest
    else if IsTimestamp line then RemoveVTTArtifacts rest
    else
      let stripped := StripHTMLTags line
      if stripped == "" then RemoveVTTArtifacts rest
      else stripped :: RemoveVTTArtifacts rest

/-- The loop of `DedupeLines`, with `prev` the last line that was kept
(initially the empty string). A line is kept iff it is non-empty and
differs from the previously kept line. -/
def dedupeGo (prev : String) : List String → List String
  | [] => []
  | line :: rest =>
    if line != "" && line != prev then line :: dedupeGo line rest
    else dedupeGo prev rest

/-- `DedupeLines` from transcript.go. -/
def DedupeLines (lines : List String) : List String :=
  dedupeGo "" lines

/-- Modelled from the spec words "adjacent-duplicate collapsing alone"
(§8): keep the first line of every run of consecutive equal lines and
drop nothing else.  This is the comparison point for the claim that
`DedupeLines` is strictly stronger. -/
def collapseAdjacentAux (prev : String) : List String → List String
  | [] => []
  | a :: rest => if a == prev then collapseAdjacentAux prev rest else a :: collapseAdjacentAux a rest

/-- Modelled from the spec words: top level of adjacent-duplicate
collapsing alone. -/
def collapseAdjacentOnly : List String → List String
  | [] => []
  | a :: rest => a :: collapseAdjacentAux a rest

/-! ### Lemmas about the cleaning transform -/

lemma dedupeGo_ne_empty : ∀ (l : List String) (prev : String), "" ∉ dedupeGo prev l := by
  intro l
  induction l with
  | nil => intro prev; simp [dedupeGo]
  | cons line rest ih =>
    intro prev
    by_cases h : (line != "" && line != prev) = true
    · simp only [dedupeGo, h, if_true, List.mem_cons]
      rintro (rfl | hm)
      · simp at h
      · exact ih line hm
    · simp only [dedupeGo, h, if_false]
      exact ih prev

lemma dedupeGo_head_ne : ∀ (l : List String) (prev x : String),
    (dedupeGo prev l).head? = some x → x ≠ prev := by
  intro l
  induction l with
  | nil => intro prev x h; simp [dedupeGo] at h
  | cons line rest ih =>
    intro prev x h
    by_cases hk : (line != "" && line != prev) = true
    · simp only [dedupeGo, hk, if_true, List.head?_cons, Option.some.injEq] at h
      subst h
      simp only [Bool.and_eq_true, bne_iff_ne, ne_eq] at hk
      exact hk.2
    · simp only [dedupeGo, hk, if_false] at h
      exact ih prev x h

lemma dedupeGo_chain : ∀ (l : List String) (prev : String),
    List.Chain' (fun a b => a ≠ b) (dedupeGo prev l) := by
  intro l
  induction l with
  | nil => intro prev; simp [dedupeGo]
  | cons line rest ih =>
    intro prev
    by_cases hk : (line != "" && line != prev) = true
    · simp only [dedupeGo, hk, if_true]
      rw [List.chain'_cons']
      refine ⟨?_, ih line⟩
      intro y hy
      exact fun hxy => (dedupeGo_head_ne rest line y hy) hxy.symm
    · simp only [dedupeGo, hk, if_false]
      exact ih prev

/-- C8: The cleaning transform is a pure function; on the input lines
["WEBVTT", "1", "00:00:00.000 --> 00:00:01.000", "<b>Hello</b>",
"Hello", "World"] the composition of `RemoveVTTArtifacts` and
`DedupeLines` (the pipeline applied by `CleanVTTFile`) yields exactly
["Hello", "World"]: the literal "Hello" is dropped because it equals the
previously kept line after tag stripping. -/
theorem cleaning_pipeline_example :
    DedupeLines (RemoveVTTArtifacts
      ["WEBVTT", "1", "00:00:00.000 --> 00:00:01.000", "<b>Hello</b>", "Hello", "World"])
      = ["Hello", "World"] := by
  decide

/-- C9: `IsTimestamp` classifies "00:00:01.000 --> 00:00:02.500" as a
timestamp line, which `RemoveVTTArtifacts` therefore removes, and
classifies "00:00:01.000" alone as not a timestamp line, which the
remaining cleaning rules then keep. -/
theorem isTimestamp_classification :
    IsTimestamp "00:00:01.000 --> 00:00:02.500" = true
      ∧ IsTimestamp "00:00:01.000" = false
      ∧ RemoveVTTArtifacts ["00:00:01.000 --> 00:00:02.500"] = []
      ∧ RemoveVTTArtifacts ["00:00:01.000"] = ["00:00:01.000"] := by
  decide

/-- C10: For every input, the output of `DedupeLines` contains no empty
line (empties are dropped regardless of adjacency) and carries no two
consecutive equal lines; on ["a", "", "", "a", "b"] it differs from
adjacent-duplicate collapsing alone (`collapseAdjacentOnly`, modelled
from the spec words), so its behavior is strictly stronger. -/
theorem dedupeLines_no_empty_strictly_stronger :
    (∀ lines : List String, "" ∉ DedupeLines lines)
      ∧ (∀ lines : List String, List.Chain' (fun a b => a ≠ b) (DedupeLines lines))
      ∧ DedupeLines ["a", "", "", "a", "b"] = ["a", "b"]
      ∧ collapseAdjacentOnly ["a", "", "", "a", "b"] = ["a", "", "a", "b"]
      ∧ DedupeLines ["a", "", "", "a", "b"] ≠ collapseAdjacentOnly ["a", "", "", "a", "b"] := by
  refine ⟨fun lines => dedupeGo_ne_empty lines "", fun lines => dedupeGo_chain lines "", ?_, ?_, ?_⟩
  · decide
  · decide
  · decide

/-! ## Filename and path helpers (files source, part of the internal package) -/

/-- Step 1 of `SanitizeFilename`: the seven `strings.ReplaceAll` calls,
all of which act character by character (space, slash, colon, double
quote and single quote become a hyphen; question mark and star are
deleted). The single-quote character is compared through its code (39)
rather than a literal. -/
def sanitizeReplace (c : Char) : Option Char :=
  if c = ' ' ∨ c = '/' ∨ c = ':' ∨ c = '"' ∨ c.toNat = 39 then some '-'
  else if c = '?' ∨ c = '*' then none
  else some c

/-- The character class of the `invalidPathChars` regex: alphanumerics,
hyphen, underscore and dot are kept, everything else is removed. -/
def allowedPathChar (c : Char) : Bool :=
  ('a' ≤ c && c ≤ 'z') || ('A' ≤ c && c ≤ 'Z') || ('0' ≤ c && c ≤ '9')
    || c == '-' || c == '_' || c == '.'

/-- Replacing every match of the regex run-of-two-or-more of `ch` by a
single `ch`: collapse consecutive repetitions of `ch`. -/
def collapseRuns (ch : Char) : List Char → List Char
  | [] => []
  | [c] => [c]
  | c1 :: c2 :: rest =>
    if c1 == ch && c2 == ch then collapseRuns ch (c2 :: rest)
    else c1 :: collapseRuns ch (c2 :: rest)

/-- `strings.Trim(s, "-_")` drops hyphens and underscores from both ends;
this is the predicate for the dropped characters. -/
def isTrimChar (c : Char) : Bool :=
  c == '-' || c == '_'

/-- `SanitizeFilename` from the files source: character replacements,
removal of disallowed characters, collapsing of hyphen runs and
underscore runs, trimming, a 100-character cap with re-trimming, and the
default name for an empty result. The `multipleDots` regex (a literal
backslash followed by one or more characters) can no longer match after
disallowed characters — including every backslash — have been removed,
so that replacement is the identity here. -/
def SanitizeFilename (name : String) : String :=
  let replaced := name.data.filterMap sanitizeReplace
  let kept := replaced.filter allowedPathChar
  let collapsed := collapseRuns '_' (collapseRuns '-' kept)
  let trimmed := ((collapsed.dropWhile isTrimChar).reverse.dropWhile isTrimChar).reverse
  let capped :=
    if 100 < trimmed.length then ((trimmed.take 100).reverse.dropWhile isTrimChar).reverse
    else trimmed
  if capped.isEmpty then "default_filename" else String.mk capped

/-- `filepath.Join dir name`. Every call site in the repository joins a
non-empty directory without trailing slash with a clean relative name,
where Join reduces to inserting one separator. -/
def joinPath (dir name : String) : String :=
  dir ++ "/" ++ name

/-- `GetCleanedFilePathByTitle` from the files source: reject an empty
title, otherwise join the cleaned directory with the sanitized title
plus the .txt extension. -/
def GetCleanedFilePathByTitle (videoTitle cleanedDir : String) : Except String String :=
  if videoTitle == "" then .error "videoTitle cannot be empty when constructing cleaned file path"
  else .ok (joinPath cleanedDir (SanitizeFilename videoTitle ++ ".txt"))

/-- `GetLocalVTTPathByVideoID` from the files source. -/
def GetLocalVTTPathByVideoID (videoID rawVTTDir : String) : Except String String :=
  if videoID == "" then .error "videoID cannot be empty when constructing raw VTT path"
  else .ok (joinPath rawVTTDir (videoID ++ ".vtt"))

/-! ### The filesystem model used for directory setup

A filesystem is the list of paths of the files that exist. Directory
creation adds no files; `os.RemoveAll dir` deletes every file under
`dir`. -/

/-- A path lies inside a directory when the directory plus separator is
one of its prefixes. -/
def isUnderDir (dir path : String) : Bool :=
  (dir ++ "/").data.isPrefixOf path.data

/-- `os.RemoveAll dir` at the file-set level. -/
def removeAllUnder (dir : String) (fs : List String) : List String :=
  fs.filter (fun p => !(isUnderDir dir p))

/-- `EnsureDirectories` from the files source: `os.MkdirAll` on both
directories; creating directories leaves the set of files unchanged. -/
def EnsureDirectories (rawVTTDir cleanedDir : String) (fs : List String) : List String :=
  fs

/-- `CleanDirectories` from the files source: `os.RemoveAll` on the raw
directory, then on the cleaned directory, then `EnsureDirectories`. -/
def CleanDirectories (rawVTTDir cleanedDir : String) (fs : List String) : List String :=
  EnsureDirectories rawVTTDir cleanedDir (removeAllUnder cleanedDir (removeAllUnder rawVTTDir fs))

/-! ## internal/youtube.go -/

/-- Outcome of an `os.Stat` call: no error, a not-exists error, or some
other error. -/
inductive StatOutcome where
  | found
  | notExists
  | otherError (msg : String)
deriving DecidableEq

/-- The external world as oracles: the raw output of the yt-dlp title
invocation per URL, the exit outcome of the yt-dlp subtitle invocation
per URL and output template, `os.Stat`, and file reads and writes. -/
structure Env where
  ytDlpTitle : String → Except String String
  ytDlpSubs : String → String → Except String Unit
  stat : String → StatOutcome
  readFile : String → Except String String
  writeFile : String → String → Except String Unit

/-- A filesystem oracle for `os.Stat`: exactly the files in `fs` exist. -/
def statOf (fs : List String) (p : String) : StatOutcome :=
  if p ∈ fs then .found else .notExists

/-- `FetchTitle` from youtube.go: run yt-dlp, fail if it fails, trim the
output, and fail if the trimmed title is empty. -/
def FetchTitle (env : Env) (url : String) : Except String String :=
  match env.ytDlpTitle url with
  | .error e => .error ("yt-dlp failed to fetch title: " ++ e)
  | .ok output =>
    let title := trimSpace output
    if title == "" then .error "yt-dlp returned an empty title"
    else .ok title

/-- `DownloadSubtitles` from youtube.go: run the yt-dlp subtitle command
with the id-based output template, then verify that the expected VTT
file exists, distinguishing a missing file from another stat error. -/
def DownloadSubtitles (env : Env) (url videoID outputDir : String) : Except String Unit :=
  let outputTemplate := joinPath outputDir "%(id)s"
  match env.ytDlpSubs url outputTemplate with
  | .error e => .error e
  | .ok _ =>
    let expectedVTTPath := joinPath outputDir (videoID ++ ".vtt")
    match env.stat expectedVTTPath with
    | .notExists => .error ("yt-dlp completed but subtitle file " ++ expectedVTTPath
        ++ " was not created (likely no subtitles found for lang en)")
    | .otherError msg => .error ("error checking for subtitle file " ++ expectedVTTPath
        ++ " after download: " ++ msg)
    | .found => .ok ()

/-- `strings.Index`: position of the first occurrence of a substring. -/
def idxOfSub (needle : List Char) : List Char → Option Nat
  | [] => if needle.isEmpty then some 0 else none
  | c :: rest =>
    if needle.isPrefixOf (c :: rest) then some 0
    else (idxOfSub needle rest).map (fun n => n + 1)

/-- `ExtractVideoID` from youtube.go: the value after v= cut at the first
ampersand, or the tail after youtu.be/ or /embed/ cut at the first
question mark, else an error. -/
def ExtractVideoID (url : String) : Except String String :=
  if url == "" then .error "URL cannot be empty"
  else
    match idxOfSub ("v=".data) url.data with
    | some idx => .ok (String.mk ((url.data.drop (idx + 2)).takeWhile (fun c => c ≠ '&')))
    | none =>
      match idxOfSub ("youtu.be/".data) url.data with
      | some idx => .ok (String.mk ((url.data.drop (idx + 9)).takeWhile (fun c => c ≠ '?')))
      | none =>
        match idxOfSub ("/embed/".data) url.data with
        | some idx => .ok (String.mk ((url.data.drop (idx + 7)).takeWhile (fun c => c ≠ '?')))
        | none => .error ("not a recognized YouTube URL: " ++ url)

/-- `CleanVTTFile` from transcript.go: read the file, split on newlines,
remove VTT artifacts, dedupe, and join with newlines. -/
def CleanVTTFile (env : Env) (vttPath : String) : Except String String :=
  match env.readFile vttPath with
  | .error e => .error e
  | .ok content =>
    .ok (String.intercalate "\n" (DedupeLines (RemoveVTTArtifacts (content.splitOn "\n"))))

/-- `ProcessSingleTranscript` from the executor source: compute the raw
and cleaned paths, clean the VTT content, write it, and return the
cleaned path. -/
def ProcessSingleTranscript (env : Env) (videoID videoTitle tempDir cleanedDir : String) :
    Except String String :=
  match GetLocalVTTPathByVideoID videoID tempDir with
  | .error e => .error ("failed to determine raw VTT file path for video ID " ++ videoID ++ ": " ++ e)
  | .ok rawFilePath =>
    match GetCleanedFilePathByTitle videoTitle cleanedDir with
    | .error e => .error ("failed to determine cleaned file path for title " ++ videoTitle ++ ": " ++ e)
    | .ok cleanedFilePath =>
      match CleanVTTFile env rawFilePath with
      | .error e => .error ("failed to clean VTT file " ++ rawFilePath ++ ": " ++ e)
      | .ok cleanedContent =>
        match env.writeFile cleanedFilePath cleanedContent with
        | .error e => .error ("failed to write cleaned transcript to " ++ cleanedFilePath ++ ": " ++ e)
        | .ok _ => .ok cleanedFilePath

/-! ## The job record and the worker (executor source) -/

/-- `TranscriptJob` from the job source; `error` is an optional message. -/
structure TranscriptJob where
  URL : String
  Title : String
  Status : String
  Error : Option String
  ProcessedFile : String
deriving DecidableEq, Inhabited

/-- `JobProcessingResult` from the job source: the index the result maps
back to, the final per-job record, and the job-level error. -/
structure JobProcessingResult where
  OriginalJobIndex : Nat
  ProcessedJob : TranscriptJob
  Err : Option String
deriving DecidableEq, Inhabited

/-- One external call made by the worker, recorded so that absence of a
download or of transcript processing is statable. -/
inductive WorkerEffect where
  | fetchTitle (url : String)
  | extractID (url : String)
  | statCheck (path : String)
  | download (url videoID tempDir : String)
  | processTranscript (videoID title tempDir cleanedDir : String)
deriving DecidableEq

/-- What one loop iteration of `runWorker` produces: the single emitted
result, the external calls in order, and the successive values taken by
the worker's local job record. -/
structure WorkerRun where
  result : JobProcessingResult
  effects : List WorkerEffect
  states : List TranscriptJob
deriving DecidableEq

/-- The body of the `runWorker` loop for one received job index: fetch
the title, extract the video id (falling back to it for an empty title),
compute the expected cleaned path, skip if that file exists, otherwise
download and process; each failure marks the job failed and emits. The
final emit passes the job record error as the result error, exactly as
the source does on every branch. -/
def processJob (env : Env) (tempDir cleanedDir : String) (jobIndex : Nat)
    (job0 : TranscriptJob) : WorkerRun :=
  let j1 : TranscriptJob := { job0 with Status := "fetching_title" }
  match FetchTitle env j1.URL with
  | .error e =>
    let j2 := { j1 with Error := some ("failed to fetch title: " ++ e), Status := "failed" }
    { result := ⟨jobIndex, j2, j2.Error⟩, effects := [.fetchTitle j1.URL], states := [j1, j2] }
  | .ok title =>
    let j2 := { j1 with Title := title }
    match ExtractVideoID j2.URL with
    | .error idErr =>
      let j3 := { j2 with Error := some ("failed to extract video ID: " ++ idErr), Status := "failed" }
      { result := ⟨jobIndex, j3, j3.Error⟩,
        effects := [.fetchTitle j1.URL, .extractID j2.URL], states := [j1, j2, j3] }
    | .ok videoID =>
      let j3 := if j2.Title == "" then { j2 with Title := videoID } else j2
      match GetCleanedFilePathByTitle j3.Title cleanedDir with
      | .error pathErr =>
        let j4 := { j3 with
          Error := some ("failed to determine cleaned file path: " ++ pathErr)
          Status := "failed" }
        { result := ⟨jobIndex, j4, j4.Error⟩,
          effects := [.fetchTitle j1.URL, .extractID j2.URL], states := [j1, j2, j3, j4] }
      | .ok expectedCleanedPath =>
        match env.stat expectedCleanedPath with
        | .found =>
          let j4 := { j3 with
            Status := "skipped (exists)"
            ProcessedFile := expectedCleanedPath
            Error := none }
          { result := ⟨jobIndex, j4, none⟩,
            effects := [.fetchTitle j1.URL, .extractID j2.URL, .statCheck expectedCleanedPath],
            states := [j1, j2, j3, j4] }
        | .otherError statErr =>
          let j4 := { j3 with
            Error := some ("error checking existing cleaned file "
              ++ expectedCleanedPath ++ ": " ++ statErr)
            Status := "failed" }
          { result := ⟨jobIndex, j4, j4.Error⟩,
            effects := [.fetchTitle j1.URL, .extractID j2.URL, .statCheck expectedCleanedPath],
            states := [j1, j2, j3, j4] }
        | .notExists =>
          let j4 := { j3 with Status := "downloading_subtitles" }
          match DownloadSubtitles env j4.URL videoID tempDir with
          | .error e =>
            let j5 := { j4 with
              Error := some ("failed to download subtitles: " ++ e)
              Status := "failed" }
            { result := ⟨jobIndex, j5, j5.Error⟩,
              effects := [.fetchTitle j1.URL, .extractID j2.URL, .statCheck expectedCleanedPath,
                .download j4.URL videoID tempDir],
              states := [j1, j2, j3, j4, j5] }
          | .ok _ =>
            let j5 := { j4 with Status := "processing_transcript" }
            match ProcessSingleTranscript env videoID j5.Title tempDir cleanedDir with
            | .error e =>
              let j6 := { j5 with
                Error := some ("failed to process transcript: " ++ e)
                Status := "failed" }
              { result := ⟨jobIndex, j6, j6.Error⟩,
                effects := [.fetchTitle j1.URL, .extractID j2.URL, .statCheck expectedCleanedPath,
                  .download j4.URL videoID tempDir,
                  .processTranscript videoID j5.Title tempDir cleanedDir],
                states := [j1, j2, j3, j4, j5, j6] }
            | .ok cleanedFile =>
              let j6 := { j5 with Status := "completed", ProcessedFile := cleanedFile }
              { result := ⟨jobIndex, j6, j6.Error⟩,
                effects := [.fetchTitle j1.URL, .extractID j2.URL, .statCheck expectedCleanedPath,
                  .download j4.URL videoID tempDir,
                  .processTranscript videoID j5.Title tempDir cleanedDir],
                states := [j1, j2, j3, j4, j5, j6] }

/-- `runWorker` over the slice of the queue a worker receives before the
queue is closed: the range loop ends when the closed queue is drained,
and each received index produces exactly one emitted result. The worker
reads the shared jobs slice only at its own index, before the
coordinator ever writes that index, so the initial jobs list is the
value it sees. -/
def runWorker (env : Env) (tempDir cleanedDir : String) (jobs : List TranscriptJob)
    (queueItems : List Nat) : List JobProcessingResult :=
  queueItems.map (fun jobIndex =>
    (processJob env tempDir cleanedDir jobIndex (jobs.getD jobIndex default)).result)

/-! ## The coordinator (executor source) -/

/-- The coordinator state: the fields of `WorkflowState` that the claims
touch (the progress-bar widget and the channel and wait-group handles
carry no job state). `ParallelWorkers` is a Go int and may be zero or
negative. -/
structure WorkflowState where
  Jobs : List TranscriptJob
  CurrentJobIndex : Nat
  TotalJobs : Nat
  CurrentStage : String
  ReadyToQuit : Bool
  TempDir : String
  CleanedDir : String
  ParallelWorkers : Int
  jobsCompleted : Nat
deriving DecidableEq, Inhabited

/-- `NewWorkflow` from the job source: one pending job per URL, total
count, initial stage, zeroed completion counter, and the configured
worker count stored unvalidated. -/
def NewWorkflow (urls : List String) (tempDir cleanedDir : String) (parallelWorkers : Int) :
    WorkflowState :=
  { Jobs := urls.map (fun url =>
      { URL := url, Title := "", Status := "pending", Error := none, ProcessedFile := "" })
    CurrentJobIndex := 0
    TotalJobs := urls.length
    CurrentStage := if urls.length == 0 then "completed" else "fetching_title"
    ReadyToQuit := false
    TempDir := tempDir
    CleanedDir := cleanedDir
    ParallelWorkers := parallelWorkers
    jobsCompleted := 0 }

/-- The `JobProcessingResult` branch of `WorkflowState.Update`, together
with the two early returns that precede the message switch: when not
quitting and jobs exist, write the processed job back at its index (the
non-negativity half of the source guard is vacuous for a natural
number), increment the completion counter, and on reaching the total
mark the overall workflow completed and ready to quit. -/
def UpdateOnJobResult (w : WorkflowState) (msg : JobProcessingResult) : WorkflowState :=
  if w.ReadyToQuit then w
  else if w.TotalJobs == 0 then w
  else
    let jobs :=
      if msg.OriginalJobIndex < w.Jobs.length then w.Jobs.set msg.OriginalJobIndex msg.ProcessedJob
      else w.Jobs
    let completed := w.jobsCompleted + 1
    if completed == w.TotalJobs then
      { w with
        Jobs := jobs
        jobsCompleted := completed
        CurrentStage := "completed"
        ReadyToQuit := true }
    else
      { w with Jobs := jobs, jobsCompleted := completed }

/-- The observable actions of `WorkflowState.Init`, in program order. -/
inductive InitAction where
  | spawnWorker (id : Nat)
  | enqueue (jobIndex : Nat)
  | closeQueue
deriving DecidableEq

/-- The command `Init` returns to the event loop. -/
inductive TeaCmd where
  | quit
  | waitForJobResult
  | noCmd
deriving DecidableEq

/-- `WorkflowState.Init` from the executor source, as its ordered action
trace plus returned command: quit when there are no jobs; when the
worker count is positive, launch the workers first, then enqueue all job
indices in order, then close the queue, and wait for the first result;
otherwise fall through the legacy branch, which performs none of these
actions and returns no command. -/
def InitTrace (w : WorkflowState) : List InitAction × TeaCmd :=
  if w.TotalJobs == 0 then ([], TeaCmd.quit)
  else if 0 < w.ParallelWorkers then
    (((List.range w.ParallelWorkers.toNat).map InitAction.spawnWorker)
      ++ ((List.range w.TotalJobs).map InitAction.enqueue)
      ++ [InitAction.closeQueue], TeaCmd.waitForJobResult)
  else ([], TeaCmd.noCmd)

/-! ## cmd/yt-tx/main.go -/

/-- The worker-count flag of main: `flag.IntVar` with default 1; main
passes the parsed value to `NewWorkflow` without any validation. -/
def mainWorkerCount (flagValue : Option Int) : Int :=
  flagValue.getD 1

/-- The directory preparation main performs before starting the program:
`CleanDirectories` on the temp and cleaned directories, always. -/
def mainPrepareDirectories (tempDirName cleanedDir : String) (fs : List String) : List String :=
  CleanDirectories tempDirName cleanedDir fs

/-! ## Worker lemmas -/

lemma FetchTitle_ok_ne_empty (env : Env) (url t : String)
    (hok : FetchTitle env url = .ok t) : t ≠ "" := by
  unfold FetchTitle at hok
  rcases henv : env.ytDlpTitle url with e | output <;> rw [henv] at hok
  · exact absurd hok (by simp)
  · by_cases h : trimSpace output = ""
    · simp [h] at hok
    · simp only [beq_iff_eq, h, if_false, ite_false, Except.ok.injEq] at hok
      subst hok
      exact h

lemma processJob_index (env : Env) (tempDir cleanedDir : String) (i : Nat) (j0 : TranscriptJob) :
    (processJob env tempDir cleanedDir i j0).result.OriginalJobIndex = i := by
  simp only [processJob]
  repeat' split
  all_goals simp

lemma processJob_status_terminal (env : Env) (tempDir cleanedDir : String) (i : Nat)
    (j0 : TranscriptJob) :
    (processJob env tempDir cleanedDir i j0).result.ProcessedJob.Status = "failed"
      ∨ (processJob env tempDir cleanedDir i j0).result.ProcessedJob.Status = "skipped (exists)"
      ∨ (processJob env tempDir cleanedDir i j0).result.ProcessedJob.Status = "completed" := by
  simp only [processJob]
  repeat' split
  all_goals simp

lemma processJob_err_eq (env : Env) (tempDir cleanedDir : String) (i : Nat) (j0 : TranscriptJob) :
    (processJob env tempDir cleanedDir i j0).result.Err
      = (processJob env tempDir cleanedDir i j0).result.ProcessedJob.Error := by
  simp only [processJob]
  repeat' split
  all_goals simp

/-! ## Concrete scenarios used by witnesses and counterexamples -/

/-- The per-URL job record `NewWorkflow` creates. -/
def jobPending (url : String) : TranscriptJob :=
  { URL := url, Title := "", Status := "pending", Error := none, ProcessedFile := "" }

/-- A world in which the yt-dlp title invocation fails for every URL. -/
def envTitleFails : Env :=
  { ytDlpTitle := fun _ => .error "boom"
    ytDlpSubs := fun _ _ => .error "unused"
    stat := fun _ => .notExists
    readFile := fun _ => .error "unused"
    writeFile := fun _ _ => .error "unused" }

/-- A world in which the title resolves to "My Title" and the cleaned
output file for that title already exists. -/
def envSkipRun : Env :=
  { ytDlpTitle := fun _ => .ok "My Title"
    ytDlpSubs := fun _ _ => .error "unused"
    stat := fun p => if p == "cleaned/My-Title.txt" then .found else .notExists
    readFile := fun _ => .error "unused"
    writeFile := fun _ _ => .error "unused" }

/-! ## Claims about the worker -/

/-- C2 (counterexample): with a failing title resolution the worker marks
the job failed and applies no identifier-derived fallback: the emitted
job's display title is the empty string, contradicting the claim that
every job always ends with a non-empty display title. -/
theorem title_fallback_counterexample :
    FetchTitle envTitleFails "https://youtu.be/abc" = .error "yt-dlp failed to fetch title: boom"
      ∧ (processJob envTitleFails "tmp" "cleaned" 0
          (jobPending "https://youtu.be/abc")).result.ProcessedJob.Title = ""
      ∧ (processJob envTitleFails "tmp" "cleaned" 0
          (jobPending "https://youtu.be/abc")).result.ProcessedJob.Status = "failed" := by
  decide

/-- C2 (amended): when title resolution succeeds, the job carries that
title, which is never empty (`FetchTitle` turns an empty yt-dlp output
into an error, so the videoID fallback branch cannot fire after a
success); when title resolution fails, the worker marks the job failed
and leaves the title unchanged — no fallback value derived from the
identifier is applied, so a failed job may keep an empty display
title. -/
theorem title_fallback_amended (env : Env) (tempDir cleanedDir : String) (i : Nat)
    (j0 : TranscriptJob) :
    (∀ t, FetchTitle env j0.URL = .ok t →
      (processJob env tempDir cleanedDir i j0).result.ProcessedJob.Title = t ∧ t ≠ "")
      ∧ (∀ e, FetchTitle env j0.URL = .error e →
        (processJob env tempDir cleanedDir i j0).result.ProcessedJob.Status = "failed"
          ∧ (processJob env tempDir cleanedDir i j0).result.ProcessedJob.Title = j0.Title) := by
  constructor
  · intro t hft
    have ht : t ≠ "" := FetchTitle_ok_ne_empty env j0.URL t hft
    have ht2 : (t == "") = false := by simpa [beq_eq_false_iff_ne] using ht
    refine ⟨?_, ht⟩
    simp only [processJob, hft, ht2]
    repeat' split
    all_goals simp_all
  · intro e hfe
    simp [processJob, hfe]

/-- C2 (amended, witness): the failing-title case at a concrete input. -/
theorem title_fallback_amended_witness :
    FetchTitle envTitleFails "https://youtu.be/abc" = .error "yt-dlp failed to fetch title: boom"
      ∧ (processJob envTitleFails "tmp" "cleaned" 0
          (jobPending "https://youtu.be/abc")).result.ProcessedJob.Status = "failed"
      ∧ (processJob envTitleFails "tmp" "cleaned" 0
          (jobPending "https://youtu.be/abc")).result.ProcessedJob.Title = "" := by
  refine ⟨by decide, ?_, ?_⟩
  · exact ((title_fallback_amended envTitleFails "tmp" "cleaned" 0
      (jobPending "https://youtu.be/abc")).2 "yt-dlp failed to fetch title: boom" (by decide)).1
  · have h := ((title_fallback_amended envTitleFails "tmp" "cleaned" 0
      (jobPending "https://youtu.be/abc")).2 "yt-dlp failed to fetch title: boom" (by decide)).2
    simpa using h

/-- C5: when the title resolves, the video id extracts, and the cleaned
file computed from the title already exists, the worker emits exactly
the skipped result: status "skipped (exists)" (the source spelling of
the skipped status), the output path set to the existing path, the error
cleared, and its external calls are title fetch, id extraction and the
stat check only — no download and no transcript processing occur. -/
theorem skip_existing_output (env : Env) (tempDir cleanedDir : String) (i : Nat)
    (j0 : TranscriptJob) (title videoID : String)
    (hf : FetchTitle env j0.URL = .ok title)
    (hx : ExtractVideoID j0.URL = .ok videoID)
    (hs : env.stat (joinPath cleanedDir (SanitizeFilename title ++ ".txt")) = .found) :
    (processJob env tempDir cleanedDir i j0).result
      = ⟨i, { j0 with
              Title := title
              Status := "skipped (exists)"
              ProcessedFile := joinPath cleanedDir (SanitizeFilename title ++ ".txt")
              Error := none },
          none⟩
      ∧ (processJob env tempDir cleanedDir i j0).effects
        = [WorkerEffect.fetchTitle j0.URL, WorkerEffect.extractID j0.URL,
           WorkerEffect.statCheck (joinPath cleanedDir (SanitizeFilename title ++ ".txt"))]
      ∧ (∀ u v t, WorkerEffect.download u v t ∉ (processJob env tempDir cleanedDir i j0).effects)
      ∧ (∀ a b c d, WorkerEffect.processTranscript a b c d
          ∉ (processJob env tempDir cleanedDir i j0).effects) := by
  have ht : title ≠ "" := FetchTitle_ok_ne_empty env j0.URL title hf
  have ht2 : (title == "") = false := by simpa [beq_eq_false_iff_ne] using ht
  have hmain : (processJob env tempDir cleanedDir i j0).result
      = ⟨i, { j0 with
              Title := title
              Status := "skipped (exists)"
              ProcessedFile := joinPath cleanedDir (SanitizeFilename title ++ ".txt")
              Error := none },
          none⟩
      ∧ (processJob env tempDir cleanedDir i j0).effects
        = [WorkerEffect.fetchTitle j0.URL, WorkerEffect.extractID j0.URL,
           WorkerEffect.statCheck (joinPath cleanedDir (SanitizeFilename title ++ ".txt"))] := by
    simp [processJob, hf, hx, ht2, GetCleanedFilePathByTitle, hs]
  refine ⟨hmain.1, hmain.2, ?_, ?_⟩
  · intro u v t
    rw [hmain.2]
    simp
  · intro a b c d
    rw [hmain.2]
    simp

/-- C5 (witness): a concrete run in which "cleaned/My-Title.txt" already
exists and the job is skipped with that path and no error. -/
theorem skip_existing_output_witness :
    FetchTitle envSkipRun "https://youtu.be/abc" = .ok "My Title"
      ∧ ExtractVideoID "https://youtu.be/abc" = .ok "abc"
      ∧ envSkipRun.stat (joinPath "cleaned" (SanitizeFilename "My Title" ++ ".txt")) = .found
      ∧ (processJob envSkipRun "tmp" "cleaned" 0
          (jobPending "https://youtu.be/abc")).result.ProcessedJob.Status = "skipped (exists)"
      ∧ (processJob envSkipRun "tmp" "cleaned" 0
          (jobPending "https://youtu.be/abc")).result.ProcessedJob.ProcessedFile
          = "cleaned/My-Title.txt" := by
  refine ⟨by decide, by decide, by decide, ?_, ?_⟩
  · have h := skip_existing_output envSkipRun "tmp" "cleaned" 0
      (jobPending "https://youtu.be/abc") "My Title" "abc" (by decide) (by decide) (by decide)
    rw [h.1]
  · have h := skip_existing_output envSkipRun "tmp" "cleaned" 0
      (jobPending "https://youtu.be/abc") "My Title" "abc" (by decide) (by decide) (by decide)
    rw [h.1]
    decide

/-- C6: for a job that starts with no error (as every `NewWorkflow` job
does), the emitted result's error is present iff the final status is
"failed"; the result-level error always equals the job-level error; a
completed or skipped result carries no error; and along the successive
values of the worker's job record an error, once set, is never changed
or cleared. -/
theorem job_error_iff_failed (env : Env) (tempDir cleanedDir : String) (i : Nat)
    (j0 : TranscriptJob) (h : j0.Error = none) :
    ((processJob env tempDir cleanedDir i j0).result.ProcessedJob.Error.isSome
        ↔ (processJob env tempDir cleanedDir i j0).result.ProcessedJob.Status = "failed")
      ∧ (processJob env tempDir cleanedDir i j0).result.Err
        = (processJob env tempDir cleanedDir i j0).result.ProcessedJob.Error
      ∧ ((processJob env tempDir cleanedDir i j0).result.ProcessedJob.Status = "completed"
          ∨ (processJob env tempDir cleanedDir i j0).result.ProcessedJob.Status = "skipped (exists)"
          → (processJob env tempDir cleanedDir i j0).result.ProcessedJob.Error = none)
      ∧ List.Chain' (fun a b => a.Error.isSome → b.Error = a.Error)
          (j0 :: (processJob env tempDir cleanedDir i j0).states) := by
  refine ⟨?_, processJob_err_eq env tempDir cleanedDir i j0, ?_, ?_⟩
  · simp only [processJob]
    repeat' split
    all_goals simp [h]
  · simp only [processJob]
    repeat' split
    all_goals simp [h]
  · simp only [processJob]
    repeat' split
    all_goals simp [h]

/-- C6 (witness): the failed-title run starts with no error and ends with
an error present and status failed. -/
theorem job_error_iff_failed_witness :
    (jobPending "https://youtu.be/abc").Error = none
      ∧ ((processJob envTitleFails "tmp" "cleaned" 0
          (jobPending "https://youtu.be/abc")).result.ProcessedJob.Error.isSome
        ↔ (processJob envTitleFails "tmp" "cleaned" 0
          (jobPending "https://youtu.be/abc")).result.ProcessedJob.Status = "failed") := by
  refine ⟨by decide, ?_⟩
  exact (job_error_iff_failed envTitleFails "tmp" "cleaned" 0
    (jobPending "https://youtu.be/abc") (by decide)).1

/-- Invariant of the coordinator receive loop: folding any sequence of
results with pairwise distinct in-range indices, whose count brings the
counter exactly to the total, completes the run and stores each result
at its index. -/
lemma UpdateOnJobResult_foldl (N : Nat) :
    ∀ (msgs : List JobProcessingResult) (w : WorkflowState),
      w.TotalJobs = N → w.ReadyToQuit = false → w.Jobs.length = N →
      w.jobsCompleted + msgs.length = N →
      (∀ m ∈ msgs, m.OriginalJobIndex < N) →
      (msgs.map (fun m => m.OriginalJobIndex)).Nodup →
      ((msgs.foldl UpdateOnJobResult w).TotalJobs = N
        ∧ (msgs.foldl UpdateOnJobResult w).Jobs.length = N
        ∧ (msgs.foldl UpdateOnJobResult w).jobsCompleted = N
        ∧ (msgs ≠ [] → (msgs.foldl UpdateOnJobResult w).ReadyToQuit = true
            ∧ (msgs.foldl UpdateOnJobResult w).CurrentStage = "completed")
        ∧ (∀ i : Nat, (∀ m ∈ msgs, m.OriginalJobIndex ≠ i) →
            (msgs.foldl UpdateOnJobResult w).Jobs[i]? = w.Jobs[i]?)
        ∧ (∀ m ∈ msgs, (msgs.foldl UpdateOnJobResult w).Jobs[m.OriginalJobIndex]?
            = some m.ProcessedJob)) := by
  intro msgs
  induction msgs with
  | nil =>
    intro w h1 h2 h3 h4 h5 h6
    simp only [List.length_nil, Nat.add_zero] at h4
    simp only [List.foldl_nil]
    refine ⟨h1, h3, h4, ?_, ?_, ?_⟩
    · intro h
      exact absurd rfl h
    · intro i _
      trivial
    · intro m hm
      simp at hm
  | cons m rest ih =>
    intro w h1 h2 h3 h4 h5 h6
    have hidx : m.OriginalJobIndex < N := h5 m (by simp)
    have hN0 : w.TotalJobs ≠ 0 := by rw [h1]; omega
    have hguard : m.OriginalJobIndex < w.Jobs.length := by rw [h3]; exact hidx
    have h6m : (m.OriginalJobIndex ∉ rest.map (fun m => m.OriginalJobIndex))
        ∧ (rest.map (fun m => m.OriginalJobIndex)).Nodup := by
      rw [List.map_cons, List.nodup_cons] at h6
      exact h6
    have hstep : (m :: rest).foldl UpdateOnJobResult w
        = rest.foldl UpdateOnJobResult (UpdateOnJobResult w m) := by
      simp [List.foldl_cons]
    by_cases hcomp : w.jobsCompleted + 1 = N
    · -- last message: the counter reaches N
      have hrest : rest = [] := by
        simp only [List.length_cons] at h4
        have : rest.length = 0 := by omega
        exact List.eq_nil_of_length_eq_zero this
      subst hrest
      have hw' : UpdateOnJobResult w m
          = { w with
              Jobs := w.Jobs.set m.OriginalJobIndex m.ProcessedJob
              jobsCompleted := w.jobsCompleted + 1
              CurrentStage := "completed"
              ReadyToQuit := true } := by
        unfold UpdateOnJobResult
        rw [h2]
        simp only [if_false, Bool.false_eq_true, ite_false]
        rw [if_neg (by simpa [beq_iff_eq] using hN0)]
        simp only [hguard, if_true, ite_true]
        rw [if_pos (by simp [beq_iff_eq, h1, hcomp])]
      rw [hstep, List.foldl_nil, hw']
      refine ⟨h1, by simpa using h3, by simpa using hcomp, fun _ => ⟨rfl, rfl⟩, ?_, ?_⟩
      · intro i hne
        have hmi : m.OriginalJobIndex ≠ i := hne m (by simp)
        simp [List.getElem?_set_ne hmi]
      · intro m' hm'
        rcases List.mem_cons.mp hm' with heq | hmem
        · subst heq
          simp [List.getElem?_set_self hguard]
        · simp at hmem
    · -- more messages remain: the counter stays below N
      have hrest : rest ≠ [] := by
        intro h
        subst h
        simp only [List.length_cons, List.length_nil] at h4
        omega
      have hw' : UpdateOnJobResult w m
          = { w with
              Jobs := w.Jobs.set m.OriginalJobIndex m.ProcessedJob
              jobsCompleted := w.jobsCompleted + 1 } := by
        unfold UpdateOnJobResult
        rw [h2]
        simp only [if_false, Bool.false_eq_true, ite_false]
        rw [if_neg (by simpa [beq_iff_eq] using hN0)]
        simp only [hguard, if_true, ite_true]
        rw [if_neg (by simp [beq_iff_eq, h1, hcomp])]
      have h5' : ∀ m' ∈ rest, m'.OriginalJobIndex < N := by
        intro m' hm'
        exact h5 m' (List.mem_cons_of_mem m hm')
      have ihw := ih { w with
          Jobs := w.Jobs.set m.OriginalJobIndex m.ProcessedJob
          jobsCompleted := w.jobsCompleted + 1 }
        h1 h2 (by simpa using h3)
        (by simp only [List.length_cons] at h4
            show w.jobsCompleted + 1 + rest.length = N
            omega)
        h5' h6m.2
      rw [hstep, hw']
      refine ⟨ihw.1, ihw.2.1, ihw.2.2.1, fun _ => ihw.2.2.2.1 hrest, ?_, ?_⟩
      · intro i hne
        have hne' : ∀ m' ∈ rest, m'.OriginalJobIndex ≠ i := by
          intro m' hm'
          exact hne m' (List.mem_cons_of_mem m hm')
        have h0 := ihw.2.2.2.2.1 i hne'
        rw [h0]
        have hmi : m.OriginalJobIndex ≠ i := hne m (by simp)
        simp [List.getElem?_set_ne hmi]
      · intro m' hm'
        rcases List.mem_cons.mp hm' with heq | hmem
        · subst heq
          have hne' : ∀ mm ∈ rest, mm.OriginalJobIndex ≠ m'.OriginalJobIndex := by
            intro mm hmm hc
            exact h6m.1 (by simpa [hc] using List.mem_map_of_mem (fun m => m.OriginalJobIndex) hmm)
          have h0 := ihw.2.2.2.2.1 m'.OriginalJobIndex hne'
          rw [h0]
          simp [List.getElem?_set_self hguard]
        · exact ihw.2.2.2.2.2 m' hmem

/-- C1: for every run over N jobs started through `NewWorkflow` (any
worker count), when the coordinator has folded the one worker result per
job index (results may arrive in any order: any permutation of the
indices 0..N-1), the completed-jobs counter equals N, every job record
holds a terminal status ("completed", "skipped (exists)" — the source
spelling of skipped — or "failed"), the overall stage is "completed",
each slot i holds exactly the single result emitted for index i, and a
worker emits exactly one result per received queue index. The N = 0 run
is the `NewWorkflow` state itself, already marked completed. -/
theorem run_completion (env : Env) (urls : List String) (tempDir cleanedDir : String)
    (pw : Int) (msgs : List JobProcessingResult)
    (hperm : (msgs.map (fun m => m.OriginalJobIndex)).Perm (List.range urls.length))
    (hres : ∀ m ∈ msgs, m = (processJob env tempDir cleanedDir m.OriginalJobIndex
      ((NewWorkflow urls tempDir cleanedDir pw).Jobs.getD m.OriginalJobIndex default)).result) :
    (msgs.foldl UpdateOnJobResult (NewWorkflow urls tempDir cleanedDir pw)).jobsCompleted
        = urls.length
      ∧ msgs.length = urls.length
      ∧ (∀ j ∈ (msgs.foldl UpdateOnJobResult (NewWorkflow urls tempDir cleanedDir pw)).Jobs,
          j.Status = "completed" ∨ j.Status = "skipped (exists)" ∨ j.Status = "failed")
      ∧ (msgs.foldl UpdateOnJobResult (NewWorkflow urls tempDir cleanedDir pw)).CurrentStage
          = "completed"
      ∧ (∀ i, i < urls.length →
          (msgs.foldl UpdateOnJobResult (NewWorkflow urls tempDir cleanedDir pw)).Jobs[i]?
            = some (processJob env tempDir cleanedDir i
                ((NewWorkflow urls tempDir cleanedDir pw).Jobs.getD i default)).result.ProcessedJob)
      ∧ (∀ queueItems : List Nat,
          (runWorker env tempDir cleanedDir (NewWorkflow urls tempDir cleanedDir pw).Jobs
            queueItems).map (fun r => r.OriginalJobIndex) = queueItems) := by
  have hworker : ∀ queueItems : List Nat,
      (runWorker env tempDir cleanedDir (NewWorkflow urls tempDir cleanedDir pw).Jobs
        queueItems).map (fun r => r.OriginalJobIndex) = queueItems := by
    intro qs
    simp only [runWorker, List.map_map]
    exact List.map_id'' (fun i => processJob_index env tempDir cleanedDir i _) qs
  have hlen : msgs.length = urls.length := by
    have := hperm.length_eq
    simpa using this
  have hidx : ∀ m ∈ msgs, m.OriginalJobIndex < urls.length := by
    intro m hm
    have : m.OriginalJobIndex ∈ msgs.map (fun m => m.OriginalJobIndex) :=
      List.mem_map_of_mem _ hm
    have := hperm.mem_iff.mp this
    simpa using this
  have hfind : ∀ i, i < urls.length → ∃ m ∈ msgs, m.OriginalJobIndex = i := by
    intro i hi
    have : i ∈ msgs.map (fun m => m.OriginalJobIndex) := by
      apply hperm.mem_iff.mpr
      simpa using hi
    rcases List.mem_map.mp this with ⟨m, hm, hmi⟩
    exact ⟨m, hm, hmi⟩
  have hnodup : (msgs.map (fun m => m.OriginalJobIndex)).Nodup :=
    hperm.nodup_iff.mpr (List.nodup_range _)
  have w0p1 : (NewWorkflow urls tempDir cleanedDir pw).TotalJobs = urls.length := rfl
  have w0p2 : (NewWorkflow urls tempDir cleanedDir pw).ReadyToQuit = false := rfl
  have w0p3 : (NewWorkflow urls tempDir cleanedDir pw).Jobs.length = urls.length := by
    simp [NewWorkflow]
  have w0p4 : (NewWorkflow urls tempDir cleanedDir pw).jobsCompleted + msgs.length
      = urls.length := by
    simpa [NewWorkflow] using hlen
  have hfold := UpdateOnJobResult_foldl urls.length msgs
    (NewWorkflow urls tempDir cleanedDir pw) w0p1 w0p2 w0p3 w0p4 hidx hnodup
  have hAt : ∀ i, i < urls.length →
      (msgs.foldl UpdateOnJobResult (NewWorkflow urls tempDir cleanedDir pw)).Jobs[i]?
        = some (processJob env tempDir cleanedDir i
            ((NewWorkflow urls tempDir cleanedDir pw).Jobs.getD i default)).result.ProcessedJob := by
    intro i hi
    rcases hfind i hi with ⟨m, hm, hmi⟩
    have h0 := hfold.2.2.2.2.2 m hm
    rw [hmi] at h0
    rw [h0]
    have hm2 := hres m hm
    rw [hmi] at hm2
    rw [hm2]
  refine ⟨hfold.2.2.1, hlen, ?_, ?_, hAt, hworker⟩
  · intro j hj
    rcases List.mem_iff_getElem?.mp hj with ⟨i, hij⟩
    have hi : i < urls.length := by
      have h1 := (List.getElem?_eq_some_iff.mp hij).1
      rwa [hfold.2.1] at h1
    have h0 := hAt i hi
    rw [hij] at h0
    have hj2 : j = (processJob env tempDir cleanedDir i
        ((NewWorkflow urls tempDir cleanedDir pw).Jobs.getD i default)).result.ProcessedJob :=
      Option.some_injective _ h0
    rw [hj2]
    rcases processJob_status_terminal env tempDir cleanedDir i
        ((NewWorkflow urls tempDir cleanedDir pw).Jobs.getD i default) with h | h | h
    · exact Or.inr (Or.inr h)
    · exact Or.inr (Or.inl h)
    · exact Or.inl h
  · by_cases hN : urls.length = 0
    · have hm0 : msgs = [] := List.eq_nil_of_length_eq_zero (by rw [hlen, hN])
      rw [hm0]
      simp [List.foldl_nil, NewWorkflow, hN]
    · have hne : msgs ≠ [] := by
        intro h
        rw [h] at hlen
        exact hN hlen.symm
      exact (hfold.2.2.2.1 hne).2

/-- C1 (witness): a one-job run, folded to completion. -/
theorem run_completion_witness :
    ([(processJob envTitleFails "tmp" "cleaned" 0 (jobPending "https://youtu.be/abc")).result].foldl
        UpdateOnJobResult (NewWorkflow ["https://youtu.be/abc"] "tmp" "cleaned" 1)).jobsCompleted = 1
      ∧ ([(processJob envTitleFails "tmp" "cleaned" 0 (jobPending "https://youtu.be/abc")).result].foldl
        UpdateOnJobResult (NewWorkflow ["https://youtu.be/abc"] "tmp" "cleaned" 1)).CurrentStage
          = "completed" := by
  have h := run_completion envTitleFails ["https://youtu.be/abc"] "tmp" "cleaned" 1
    [(processJob envTitleFails "tmp" "cleaned" 0 (jobPending "https://youtu.be/abc")).result]
    (by decide) (by decide)
  exact ⟨by simpa using h.1, h.2.2.2.1⟩

/-! ## Claims about Init, the worker count, and directory preparation -/

/-- C7 (counterexample): in a one-job, one-worker run, the first action
of `Init` is launching a worker; the enqueue of index 0 and the closing
of the queue happen only afterwards. The queue is therefore not
populated and closed before workers start consuming — workers are
running (and may consume) while the coordinator is still enqueuing. -/
theorem queue_population_order_counterexample :
    (InitTrace (NewWorkflow ["https://youtu.be/abc"] "tmp" "cleaned" 1)).1
        = [InitAction.spawnWorker 0, InitAction.enqueue 0, InitAction.closeQueue]
      ∧ (InitTrace (NewWorkflow ["https://youtu.be/abc"] "tmp" "cleaned" 1)).1.head?
        = some (InitAction.spawnWorker 0) := by
  decide

/-- C7 (amended): `Init` launches the `workerCount` workers first, then
enqueues all N job indices in order, then closes the queue, and waits
for the first result; every index below N is enqueued; and a worker's
loop ends exactly when the closed queue is drained, having emitted one
result per received index. -/
theorem init_trace_amended (w : WorkflowState) (h1 : w.TotalJobs ≠ 0)
    (h2 : 0 < w.ParallelWorkers) :
    (InitTrace w).1
        = ((List.range w.ParallelWorkers.toNat).map InitAction.spawnWorker)
          ++ ((List.range w.TotalJobs).map InitAction.enqueue) ++ [InitAction.closeQueue]
      ∧ (InitTrace w).2 = TeaCmd.waitForJobResult
      ∧ (∀ i, i < w.TotalJobs → InitAction.enqueue i ∈ (InitTrace w).1)
      ∧ (∀ (env : Env) (tempDir cleanedDir : String) (jobs : List TranscriptJob)
          (queueItems : List Nat),
          (runWorker env tempDir cleanedDir jobs queueItems).length = queueItems.length) := by
  have hb : (w.TotalJobs == 0) = false := by simpa using h1
  refine ⟨?_, ?_, ?_, ?_⟩
  · simp [InitTrace, hb, h2]
  · simp [InitTrace, hb, h2]
  · intro i hi
    simp [InitTrace, hb, h2, hi]
  · intro env tempDir cleanedDir jobs queueItems
    simp [runWorker]

/-- C7 (amended, witness): the one-job, one-worker instance. -/
theorem init_trace_amended_witness :
    (NewWorkflow ["https://youtu.be/abc"] "tmp" "cleaned" 1).TotalJobs ≠ 0
      ∧ (0 : Int) < (NewWorkflow ["https://youtu.be/abc"] "tmp" "cleaned" 1).ParallelWorkers
      ∧ (InitTrace (NewWorkflow ["https://youtu.be/abc"] "tmp" "cleaned" 1)).2
          = TeaCmd.waitForJobResult := by
  refine ⟨by decide, by decide, ?_⟩
  exact (init_trace_amended (NewWorkflow ["https://youtu.be/abc"] "tmp" "cleaned" 1)
    (by decide) (by decide)).2.1

/-- C3 (counterexample): a caller-supplied worker count of 0 is passed
through by main unvalidated, and `Init` then neither rejects the run
(it returns no quit) nor coerces the count to 1 (its behavior differs
from the one-worker run): it performs no spawn, no enqueue and no close,
and returns no command at all — the run silently stalls. -/
theorem zero_workers_counterexample :
    mainWorkerCount (some 0) = 0
      ∧ (InitTrace (NewWorkflow ["https://youtu.be/abc"] "tmp" "cleaned"
          (mainWorkerCount (some 0)))).1 = []
      ∧ (InitTrace (NewWorkflow ["https://youtu.be/abc"] "tmp" "cleaned"
          (mainWorkerCount (some 0)))).2 = TeaCmd.noCmd
      ∧ InitTrace (NewWorkflow ["https://youtu.be/abc"] "tmp" "cleaned" (mainWorkerCount (some 0)))
        ≠ InitTrace (NewWorkflow ["https://youtu.be/abc"] "tmp" "cleaned" 1) := by
  decide

/-- C3 (amended): a worker count of 0 (or less) is neither rejected nor
coerced — `Init` skips the parallel branch entirely, performing no
actions and returning no command; and because the queue is populated
only inside the branch that has already launched a positive number of
workers, a populated queue always comes with at least one spawned
worker, so the engine never reaches a state with a populated queue and
no worker to drain it. -/
theorem zero_workers_amended (w : WorkflowState) :
    (w.ParallelWorkers ≤ 0 → w.TotalJobs ≠ 0 →
      (InitTrace w).1 = [] ∧ (InitTrace w).2 = TeaCmd.noCmd)
      ∧ (∀ i, InitAction.enqueue i ∈ (InitTrace w).1 →
        0 < w.ParallelWorkers ∧ InitAction.spawnWorker 0 ∈ (InitTrace w).1) := by
  constructor
  · intro hpw h0
    have hb : (w.TotalJobs == 0) = false := by simpa using h0
    have hpw2 : ¬(0 < w.ParallelWorkers) := by omega
    constructor
    · simp [InitTrace, hb, hpw2]
    · simp [InitTrace, hb, hpw2]
  · intro i hi
    by_cases h0 : w.TotalJobs = 0
    · have hb : (w.TotalJobs == 0) = true := by simpa using h0
      simp [InitTrace, hb] at hi
    · have hb : (w.TotalJobs == 0) = false := by simpa using h0
      by_cases hpw : 0 < w.ParallelWorkers
      · refine ⟨hpw, ?_⟩
        have htn : 0 < w.ParallelWorkers.toNat := by omega
        simp [InitTrace, hb, hpw, htn]
      · simp [InitTrace, hb, hpw] at hi

/-- C3 (amended, witness): the zero-worker instance performs no actions;
an enqueue in the one-worker instance comes with a spawned worker. -/
theorem zero_workers_amended_witness :
    ((NewWorkflow ["https://youtu.be/abc"] "tmp" "cleaned" 0).ParallelWorkers ≤ 0
        ∧ (NewWorkflow ["https://youtu.be/abc"] "tmp" "cleaned" 0).TotalJobs ≠ 0)
      ∧ (InitTrace (NewWorkflow ["https://youtu.be/abc"] "tmp" "cleaned" 0)).1 = []
      ∧ (0 < (NewWorkflow ["https://youtu.be/abc"] "tmp" "cleaned" 1).ParallelWorkers
        ∧ InitAction.spawnWorker 0
            ∈ (InitTrace (NewWorkflow ["https://youtu.be/abc"] "tmp" "cleaned" 1)).1) := by
  refine ⟨⟨by decide, by decide⟩, ?_, ?_⟩
  · exact ((zero_workers_amended (NewWorkflow ["https://youtu.be/abc"] "tmp" "cleaned" 0)).1
      (by decide) (by decide)).1
  · exact (zero_workers_amended (NewWorkflow ["https://youtu.be/abc"] "tmp" "cleaned" 1)).2 0
      (by decide)

/-! ## Claims about directory preparation across runs -/

/-- The filesystem left by a first run that completed the job for title
"My Title": the cleaned output file exists. -/
def fsAfterRun1 : List String := ["cleaned/My-Title.txt"]

/-- The world of the second run, after main has prepared (cleared) the
directories: the stat oracle sees exactly the files that survive
`CleanDirectories`, plus the raw VTT file the downloader then creates
under the temp directory; downloads, reads and writes succeed. -/
def envSecondRun : Env :=
  { ytDlpTitle := fun _ => .ok "My Title"
    ytDlpSubs := fun _ _ => .ok ()
    stat := fun p => if p == "tmp/abc.vtt" then .found
      else statOf (mainPrepareDirectories "tmp" "cleaned" fsAfterRun1) p
    readFile := fun _ => .ok "WEBVTT\nHello"
    writeFile := fun _ _ => .ok () }

/-- C4 (counterexample): the first run left "cleaned/My-Title.txt" in
place, but main's directory preparation removes everything under the
output directory, so the second run over the same identifier finds no
existing output, does not skip, and completes the full pipeline again —
refuting "never cleared at the start of a run" and the skipped second
run. -/
theorem output_dir_cleared_counterexample :
    "cleaned/My-Title.txt" ∈ fsAfterRun1
      ∧ mainPrepareDirectories "tmp" "cleaned" fsAfterRun1 = []
      ∧ (processJob envSecondRun "tmp" "cleaned" 0
          (jobPending "https://youtu.be/abc")).result.ProcessedJob.Status = "completed"
      ∧ (processJob envSecondRun "tmp" "cleaned" 0
          (jobPending "https://youtu.be/abc")).result.ProcessedJob.Status
          ≠ "skipped (exists)" := by
  decide

/-- C4 (amended): main clears the output directory at the start of every
run: directory preparation removes exactly the files under the raw and
cleaned directories and keeps everything else (directories are then
recreated, which adds no files). Consequently a second run over the same
identifier with all stages succeeding ends "completed" again — the skip
with the first run's outputPath happens only when the output file still
exists at job time, which the preparation step has just precluded. -/
theorem output_dir_cleared_amended (raw cleaned : String) (fs : List String) :
    (∀ p, isUnderDir cleaned p = true → p ∉ mainPrepareDirectories raw cleaned fs)
      ∧ (∀ p, p ∈ mainPrepareDirectories raw cleaned fs
        ↔ (p ∈ fs ∧ isUnderDir raw p = false ∧ isUnderDir cleaned p = false))
      ∧ (processJob envSecondRun "tmp" "cleaned" 0
          (jobPending "https://youtu.be/abc")).result.ProcessedJob.Status = "completed" := by
  refine ⟨?_, ?_, by decide⟩
  · intro p hp hmem
    simp [mainPrepareDirectories, CleanDirectories, EnsureDirectories, removeAllUnder,
      List.mem_filter, hp] at hmem
  · intro p
    simp [mainPrepareDirectories, CleanDirectories, EnsureDirectories, removeAllUnder,
      List.mem_filter]
    tauto

/-- C4 (amended, witness): the concrete cleared path. -/
theorem output_dir_cleared_amended_witness :
    isUnderDir "cleaned" "cleaned/My-Title.txt" = true
      ∧ "cleaned/My-Title.txt" ∉ mainPrepareDirectories "tmp" "cleaned" fsAfterRun1 := by
  refine ⟨by decide, ?_⟩
  exact (output_dir_cleared_amended "tmp" "cleaned" fsAfterRun1).1 "cleaned/My-Title.txt"
    (by decide)
